import Mathlib

/-
Verification of the DCF projection-and-valuation engine of app.py
(interactive_DCF).  The engine is embedded shallowly over ℚ: every
pipeline stage of the script (revenue build-up, line-item P&L rows,
ΔNWC policy, discounting, terminal value, aggregation, sensitivity
grids, custom-growth parsing) is translated into an executable
definition, and the spec's claims are settled as theorems about those
definitions.  Python floats are modelled by exact rationals; the
float NaN produced at a non-convergent perpetuity (wacc ≤ g) is
modelled by Option.none, and the script's `x if not isnan(x) else 0`
idiom by Option.getD 0.
-/

/-- Terminal-value method selector, mirroring the radio control of app.py
(line 133): Perpetuity (Gordon) or Exit multiple (EV/EBITDA). -/
inductive TVMethod
  | perpetuity
  | exitMultiple
deriving DecidableEq

/-- The configuration object assembled by the sidebar of app.py: base
revenue, margin fractions, tax rate, per-year growth schedule, horizon,
ΔNWC policy, discounting and terminal-value assumptions, net debt and
diluted share count. -/
structure Config where
  revenue : ℚ
  cogs_pct : ℚ
  sga_pct : ℚ
  rnd_pct : ℚ
  da_pct : ℚ
  capex_pct : ℚ
  tax_rate : ℚ
  growths : List ℚ
  horizon : ℕ
  use_abs_nwc : Bool
  delta_nwc_abs : ℚ
  nwc_pct : ℚ
  wacc : ℚ
  tv_method : TVMethod
  perp_g : ℚ
  exit_mult : ℚ
  net_debt : ℚ
  diluted_shares : ℚ

/-- One projected year of the line-item table df built at app.py
lines 160-186. -/
structure Row where
  growth : ℚ
  revenue : ℚ
  cogs : ℚ
  sga : ℚ
  rnd : ℚ
  ebitda : ℚ
  da : ℚ
  ebit : ℚ
  nopat : ℚ
  capex : ℚ
  dnwc : ℚ
  fcf : ℚ

/-- The projected revenue list built by the loop at app.py lines 150-155:
revenues[0] = revenue * (1 + growths[0]) and
revenues[i] = revenues[i-1] * (1 + growths[i]). -/
def revenuesList (r0 : ℚ) : List ℚ → List ℚ
  | [] => []
  | g :: gs => r0 * (1 + g) :: revenuesList (r0 * (1 + g)) gs

/-- Helper for deltaRevenues: successive differences against the previous
element. -/
def deltaRevAux (prev : ℚ) : List ℚ → List ℚ
  | [] => []
  | r :: rs => (r - prev) :: deltaRevAux r rs

/-- The column df["ΔRevenue"] = df["Revenue"].diff().fillna(df["Revenue"].iloc[0])
of app.py line 182: the first entry is the first projected revenue itself
(the fillna value), later entries are successive differences. -/
def deltaRevenues : List ℚ → List ℚ
  | [] => []
  | r :: rs => r :: deltaRevAux r rs

/-- The ΔNWC column of app.py lines 172-183: with the observed-NWC policy the
single observed value goes to year 1 and all later years are 0; otherwise
each entry is ΔRevenue times nwc_pct. -/
def dnwcList (cfg : Config) (revs : List ℚ) : List ℚ :=
  if cfg.use_abs_nwc then
    match revs with
    | [] => []
    | _ :: rest => cfg.delta_nwc_abs :: rest.map (fun _ => (0 : ℚ))
  else
    (deltaRevenues revs).map (fun d => d * cfg.nwc_pct)

/-- One row of the P&L table from its revenue, growth and ΔNWC entries,
following app.py lines 160-186: cogs, sga, rnd, da, capex are margin
fractions of revenue; ebitda = revenue − (cogs + sga + rnd);
ebit = ebitda − da; nopat = ebit * (1 − tax); fcf = nopat + da − capex − ΔNWC. -/
def mkRow (cfg : Config) (g rev d : ℚ) : Row :=
  let cogs := rev * cfg.cogs_pct
  let sga := rev * cfg.sga_pct
  let rnd := rev * cfg.rnd_pct
  let ebitda := rev - (cogs + sga + rnd)
  let da := rev * cfg.da_pct
  let ebit := ebitda - da
  let nopat := ebit * (1 - cfg.tax_rate)
  let capex := rev * cfg.capex_pct
  { growth := g, revenue := rev, cogs := cogs, sga := sga, rnd := rnd,
    ebitda := ebitda, da := da, ebit := ebit, nopat := nopat, capex := capex,
    dnwc := d, fcf := nopat + da - capex - d }

/-- Zips the growth, revenue and ΔNWC columns into rows. -/
def projRowsAux (cfg : Config) : List ℚ → List ℚ → List ℚ → List Row
  | g :: gs, r :: rs, d :: ds => mkRow cfg g r d :: projRowsAux cfg gs rs ds
  | _, _, _ => []

/-- The full projection table df of app.py lines 150-186. -/
def projRows (cfg : Config) : List Row :=
  let revs := revenuesList cfg.revenue cfg.growths
  projRowsAux cfg cfg.growths revs (dnwcList cfg revs)

/-- discount_factors_array of app.py lines 31-32:
the i-th entry (0-based) is 1 / (1 + wacc)^(i+1). -/
def discountFactorsArray (years : ℕ) (wacc : ℚ) : List ℚ :=
  (List.range years).map (fun i => 1 / (1 + wacc) ^ (i + 1))

/-- pv_fcfs_sum of app.py lines 191-211: the sum of FCF times discount
factor over the projected years. -/
def pvFcfsSum (cfg : Config) : ℚ :=
  (List.zipWith (fun f d => f * d) ((projRows cfg).map Row.fcf)
    (discountFactorsArray cfg.horizon cfg.wacc)).sum

/-- df["FCF"].iloc[-1]: the final projected year's free cash flow. -/
def lastFcf (cfg : Config) : ℚ :=
  (((projRows cfg).map Row.fcf).getLast?).getD 0

/-- df["EBITDA"].iloc[-1]: the final projected year's EBITDA. -/
def lastEbitda (cfg : Config) : ℚ :=
  (((projRows cfg).map Row.ebitda).getLast?).getD 0

/-- discounts[-1]: the final year's discount factor. -/
def lastDiscount (cfg : Config) : ℚ :=
  ((discountFactorsArray cfg.horizon cfg.wacc).getLast?).getD 0

/-- The Gordon perpetuity formula of app.py line 202: fcf * (1 + g) / (w − g). -/
def gordonTV (fcf g w : ℚ) : ℚ := fcf * (1 + g) / (w - g)

/-- The terminal value tv of app.py lines 196-207.  In perpetuity mode the
script assigns np.nan when wacc ≤ perp_g; the NaN is modelled by none. -/
def tvOpt (cfg : Config) : Option ℚ :=
  match cfg.tv_method with
  | TVMethod.perpetuity =>
      if cfg.wacc ≤ cfg.perp_g then none
      else some (gordonTV (lastFcf cfg) cfg.perp_g cfg.wacc)
  | TVMethod.exitMultiple => some (lastEbitda cfg * cfg.exit_mult)

/-- pv_tv of app.py lines 203 and 208: tv * discounts[-1], still NaN (none)
when tv is NaN. -/
def pvTvOpt (cfg : Config) : Option ℚ :=
  (tvOpt cfg).map (fun t => t * lastDiscount cfg)

/-- The PV-of-terminal metric displayed at app.py line 225:
pv_tv if not np.isnan(pv_tv) else 0.0. -/
def pvTvDisplayed (cfg : Config) : ℚ := (pvTvOpt cfg).getD 0

/-- enterprise_value of app.py line 212:
pv_fcfs_sum + (pv_tv if not np.isnan(pv_tv) else 0.0). -/
def enterpriseValue (cfg : Config) : ℚ :=
  pvFcfsSum cfg + (pvTvOpt cfg).getD 0

/-- equity_value of app.py line 213. -/
def equityValue (cfg : Config) : ℚ := enterpriseValue cfg - cfg.net_debt

/-- per_share_value of app.py line 214: equity_value * 1e7 / diluted_shares
(the crore → rupee unit-scale constant is 10^7). -/
def perShareValue (cfg : Config) : ℚ :=
  equityValue cfg * 10000000 / cfg.diluted_shares

/-- The custom growth parsing of app.py lines 107-111.  Each comma-separated
token either parses to a rational (some) or fails (none); when every token
parses the list is truncated to the horizon, and when any token fails the
whole schedule silently falls back to a flat 0.06. -/
def parseCustomGrowth (toks : List (Option ℚ)) (horizon : ℕ) : List ℚ :=
  if toks.all Option.isSome then (toks.filterMap id).take horizon
  else List.replicate horizon (6 / 100)

/-- np.linspace(a, b, n): n evenly spaced points from a to b inclusive. -/
def linspace (a b : ℚ) (n : ℕ) : List ℚ :=
  (List.range n).map (fun k : ℕ => a + (b - a) * (k : ℚ) / ((n : ℚ) - 1))

/-- The WACC axis of the perpetuity sensitivity grid, app.py line 247. -/
def waccGridPerp (cfg : Config) : List ℚ :=
  linspace (max (2 / 100) (cfg.perp_g + 5 / 1000))
    (max (5 / 100) (cfg.wacc + 4 / 100)) 12

/-- The terminal-growth axis of the perpetuity sensitivity grid,
app.py line 248. -/
def gGridPerp (cfg : Config) : List ℚ :=
  linspace 0 (max (6 / 100) (cfg.perp_g + 2 / 100)) 12

/-- evx of app.py line 258: the base-case pv_fcfs_sum plus the cell's
rediscounted terminal value (the explicit-horizon term is NOT recomputed
at the cell's WACC). -/
def perpCellEV (cfg : Config) (W G : ℚ) : ℚ :=
  pvFcfsSum cfg + gordonTV (lastFcf cfg) G W * (1 / (1 + W) ^ cfg.horizon)

/-- One cell of the perpetuity grid, app.py lines 253-261: np.nan (none)
when W ≤ G, otherwise the per-share value from the cell's enterprise
value. -/
def perpGridCell (cfg : Config) (W G : ℚ) : Option ℚ :=
  if W ≤ G then none
  else some ((perpCellEV cfg W G - cfg.net_debt) * 10000000 / cfg.diluted_shares)

/-- The matrix Z of the perpetuity sensitivity heatmap, app.py lines 249-262. -/
def perpGrid (cfg : Config) : List (List (Option ℚ)) :=
  (waccGridPerp cfg).map (fun W => (gGridPerp cfg).map (fun G => perpGridCell cfg W G))

/-- The WACC axis of the exit-multiple sensitivity grid, app.py line 267. -/
def waccGridExit (cfg : Config) : List ℚ :=
  linspace (2 / 100) (max (5 / 100) (cfg.wacc + 4 / 100)) 12

/-- The multiple axis of the exit-multiple sensitivity grid, app.py line 268. -/
def multGrid (cfg : Config) : List ℚ :=
  linspace (max 4 (cfg.exit_mult - 8)) (cfg.exit_mult + 8) 12

/-- evx of app.py line 275: base-case pv_fcfs_sum plus the cell's
rediscounted exit-multiple terminal value. -/
def exitCellEV (cfg : Config) (W M : ℚ) : ℚ :=
  pvFcfsSum cfg + lastEbitda cfg * M * (1 / (1 + W) ^ cfg.horizon)

/-- One cell of the exit-multiple grid, app.py lines 272-278. -/
def exitGridCell (cfg : Config) (W M : ℚ) : ℚ :=
  (exitCellEV cfg W M - cfg.net_debt) * 10000000 / cfg.diluted_shares

/-- The matrix Z of the exit-multiple sensitivity heatmap,
app.py lines 269-279. -/
def exitGrid (cfg : Config) : List (List ℚ) :=
  (waccGridExit cfg).map (fun W => (multGrid cfg).map (fun M => exitGridCell cfg W M))

def C2concl (cfg : Config) : Prop :=
  (projRows cfg).length = cfg.horizon ∧
  (projRows cfg).map Row.revenue = revenuesList cfg.revenue cfg.growths ∧
  ((projRows cfg).map Row.revenue).getD 0 0 = cfg.revenue * (1 + cfg.growths.getD 0 0) ∧
  (∀ i, i + 1 < cfg.horizon →
    ((projRows cfg).map Row.revenue).getD (i + 1) 0
      = ((projRows cfg).map Row.revenue).getD i 0 * (1 + cfg.growths.getD (i + 1) 0)) ∧
  ((projRows cfg).map Row.revenue).getLast?
      = some (cfg.revenue * (cfg.growths.map (fun g => 1 + g)).prod) ∧
  (0 < cfg.revenue → (∀ g ∈ cfg.growths, 0 < g) →
    cfg.revenue < ((projRows cfg).map Row.revenue).getD 0 0) ∧
  (0 < cfg.revenue → (∀ g ∈ cfg.growths, 0 < g) → ∀ i, i + 1 < cfg.horizon →
    ((projRows cfg).map Row.revenue).getD i 0
      < ((projRows cfg).map Row.revenue).getD (i + 1) 0) ∧
  (∀ r ∈ projRows cfg,
    r.cogs = r.revenue * cfg.cogs_pct ∧ r.sga = r.revenue * cfg.sga_pct ∧
    r.rnd = r.revenue * cfg.rnd_pct ∧ r.da = r.revenue * cfg.da_pct ∧
    r.capex = r.revenue * cfg.capex_pct ∧
    r.ebitda = r.revenue - (r.cogs + r.sga + r.rnd) ∧
    r.ebit = r.ebitda - r.da ∧
    r.nopat = r.ebit * (1 - cfg.tax_rate) ∧
    r.fcf = r.nopat + r.da - r.capex - r.dnwc)

def C3concl (cfg : Config) : Prop :=
  tvOpt { cfg with tv_method := TVMethod.perpetuity }
      = some (gordonTV (lastFcf cfg) cfg.perp_g cfg.wacc) ∧
  tvOpt { cfg with tv_method := TVMethod.exitMultiple }
      = some (lastEbitda cfg * cfg.exit_mult) ∧
  pvTvOpt { cfg with tv_method := TVMethod.perpetuity }
      = some (gordonTV (lastFcf cfg) cfg.perp_g cfg.wacc * (1 / (1 + cfg.wacc) ^ cfg.horizon)) ∧
  pvTvOpt { cfg with tv_method := TVMethod.exitMultiple }
      = some (lastEbitda cfg * cfg.exit_mult * (1 / (1 + cfg.wacc) ^ cfg.horizon)) ∧
  gordonTV 100 (4 / 100) (11 / 100) = 10400 / 7 ∧
  |gordonTV 100 (4 / 100) (11 / 100) - 148571 / 100| ≤ 1 / 100

def C4concl (cfg : Config) (w w2 : ℚ) (n i j k : ℕ) : Prop :=
  (discountFactorsArray n w).length = n ∧
  (discountFactorsArray n w).getD k 0 = 1 / (1 + w) ^ (k + 1) ∧
  0 < (discountFactorsArray n w).getD k 0 ∧
  (discountFactorsArray n w).getD k 0 ≤ 1 ∧
  (discountFactorsArray n w2).getD j 0 < (discountFactorsArray n w2).getD i 0 ∧
  (discountFactorsArray 1 (1 / 10)).getD 0 0 = 10 / 11 ∧
  pvFcfsSum cfg = ((List.range cfg.horizon).map
    (fun m => ((projRows cfg).map Row.fcf).getD m 0 * (1 / (1 + cfg.wacc) ^ (m + 1)))).sum

def C8concl (cfg : Config) (i j : ℕ) : Prop :=
  (perpGrid cfg).length = 12 ∧
  ((perpGrid cfg).getD i []).length = 12 ∧
  ((perpGrid cfg).getD i []).getD j none =
    (if (waccGridPerp cfg).getD i 0 ≤ (gGridPerp cfg).getD j 0 then none
     else some ((perpCellEV cfg ((waccGridPerp cfg).getD i 0) ((gGridPerp cfg).getD j 0)
        - cfg.net_debt) * 10000000 / cfg.diluted_shares))

def C9concl (cfg : Config) : Prop :=
  tvOpt cfg = none ∧ pvTvOpt cfg = none ∧ pvTvDisplayed cfg = 0 ∧
  enterpriseValue cfg = pvFcfsSum cfg ∧
  equityValue cfg = pvFcfsSum cfg - cfg.net_debt ∧
  perShareValue cfg = (pvFcfsSum cfg - cfg.net_debt) * 10000000 / cfg.diluted_shares

def C10concl (cfg : Config) (W1 W2 G M : ℚ) : Prop :=
  perpCellEV cfg W1 G - gordonTV (lastFcf cfg) G W1 * (1 / (1 + W1) ^ cfg.horizon)
      = pvFcfsSum cfg ∧
  perpCellEV cfg W2 G - gordonTV (lastFcf cfg) G W2 * (1 / (1 + W2) ^ cfg.horizon)
      = pvFcfsSum cfg ∧
  exitCellEV cfg W1 M - lastEbitda cfg * M * (1 / (1 + W1) ^ cfg.horizon) = pvFcfsSum cfg ∧
  exitCellEV cfg W2 M - lastEbitda cfg * M * (1 / (1 + W2) ^ cfg.horizon) = pvFcfsSum cfg ∧
  pvFcfsSum cfg = ((List.range cfg.horizon).map
    (fun m => ((projRows cfg).map Row.fcf).getD m 0 * (1 / (1 + cfg.wacc) ^ (m + 1)))).sum

def cfgNonConv : Config :=
  { revenue := 100, cogs_pct := 0, sga_pct := 0, rnd_pct := 0, da_pct := 0,
    capex_pct := 0, tax_rate := 0, growths := [0], horizon := 1,
    use_abs_nwc := true, delta_nwc_abs := 0, nwc_pct := 0, wacc := 4 / 100,
    tv_method := TVMethod.perpetuity, perp_g := 4 / 100, exit_mult := 15,
    net_debt := 0, diluted_shares := 1 }

def cfgProj : Config :=
  { revenue := 100, cogs_pct := 1 / 2, sga_pct := 1 / 10, rnd_pct := 1 / 20,
    da_pct := 1 / 20, capex_pct := 1 / 10, tax_rate := 1 / 4,
    growths := [1 / 10, 1 / 5], horizon := 2, use_abs_nwc := true,
    delta_nwc_abs := 5, nwc_pct := 1 / 50, wacc := 1 / 10,
    tv_method := TVMethod.perpetuity, perp_g := 1 / 25, exit_mult := 15,
    net_debt := -10, diluted_shares := 1000 }

def cfgExitCash : Config :=
  { revenue := 100, cogs_pct := 0, sga_pct := 0, rnd_pct := 0, da_pct := 0,
    capex_pct := 0, tax_rate := 0, growths := [0], horizon := 1,
    use_abs_nwc := true, delta_nwc_abs := 0, nwc_pct := 0, wacc := 0,
    tv_method := TVMethod.exitMultiple, perp_g := 0, exit_mult := 1,
    net_debt := -10, diluted_shares := 1 }

def cfgNwcBug : Config :=
  { revenue := 100, cogs_pct := 0, sga_pct := 0, rnd_pct := 0, da_pct := 0,
    capex_pct := 0, tax_rate := 0, growths := [1 / 10], horizon := 1,
    use_abs_nwc := false, delta_nwc_abs := 0, nwc_pct := 1 / 50, wacc := 1 / 10,
    tv_method := TVMethod.exitMultiple, perp_g := 0, exit_mult := 1,
    net_debt := 0, diluted_shares := 1 }

@[simp] theorem mkRow_growth (cfg : Config) (g rev d : ℚ) : (mkRow cfg g rev d).growth = g := rfl

@[simp] theorem mkRow_revenue (cfg : Config) (g rev d : ℚ) : (mkRow cfg g rev d).revenue = rev := rfl

@[simp] theorem mkRow_cogs (cfg : Config) (g rev d : ℚ) : (mkRow cfg g rev d).cogs = rev * cfg.cogs_pct := rfl

@[simp] theorem mkRow_sga (cfg : Config) (g rev d : ℚ) : (mkRow cfg g rev d).sga = rev * cfg.sga_pct := rfl

@[simp] theorem mkRow_rnd (cfg : Config) (g rev d : ℚ) : (mkRow cfg g rev d).rnd = rev * cfg.rnd_pct := rfl

@[simp] theorem mkRow_ebitda (cfg : Config) (g rev d : ℚ) :
    (mkRow cfg g rev d).ebitda = rev - (rev * cfg.cogs_pct + rev * cfg.sga_pct + rev * cfg.rnd_pct) := rfl

@[simp] theorem mkRow_da (cfg : Config) (g rev d : ℚ) : (mkRow cfg g rev d).da = rev * cfg.da_pct := rfl

@[simp] theorem mkRow_ebit (cfg : Config) (g rev d : ℚ) :
    (mkRow cfg g rev d).ebit = (mkRow cfg g rev d).ebitda - (mkRow cfg g rev d).da := rfl

@[simp] theorem mkRow_nopat (cfg : Config) (g rev d : ℚ) :
    (mkRow cfg g rev d).nopat = (mkRow cfg g rev d).ebit * (1 - cfg.tax_rate) := rfl

@[simp] theorem mkRow_capex (cfg : Config) (g rev d : ℚ) : (mkRow cfg g rev d).capex = rev * cfg.capex_pct := rfl

@[simp] theorem mkRow_dnwc (cfg : Config) (g rev d : ℚ) : (mkRow cfg g rev d).dnwc = d := rfl

@[simp] theorem mkRow_fcf (cfg : Config) (g rev d : ℚ) :
    (mkRow cfg g rev d).fcf = (mkRow cfg g rev d).nopat + (mkRow cfg g rev d).da - (mkRow cfg g rev d).capex - d := rfl

@[simp] theorem projRowsAux_cons (cfg : Config) (g r d : ℚ) (gs rs ds : List ℚ) :
    projRowsAux cfg (g :: gs) (r :: rs) (d :: ds) = mkRow cfg g r d :: projRowsAux cfg gs rs ds := rfl

@[simp] theorem projRowsAux_nil_fst (cfg : Config) (rs ds : List ℚ) :
    projRowsAux cfg [] rs ds = [] := rfl

theorem projRowsAux_nil_snd (cfg : Config) (gs ds : List ℚ) :
    projRowsAux cfg gs [] ds = [] := by cases gs <;> rfl

theorem projRowsAux_nil_trd (cfg : Config) (gs rs : List ℚ) :
    projRowsAux cfg gs rs [] = [] := by cases gs <;> cases rs <;> rfl

theorem revenuesList_length (gs : List ℚ) : ∀ r0 : ℚ, (revenuesList r0 gs).length = gs.length := by
  induction gs with
  | nil => intro r0; rfl
  | cons g gs ih => intro r0; simp [revenuesList, ih]

theorem deltaRevAux_length (rs : List ℚ) : ∀ prev : ℚ, (deltaRevAux prev rs).length = rs.length := by
  induction rs with
  | nil => intro prev; rfl
  | cons r rs ih => intro prev; simp [deltaRevAux, ih]

theorem deltaRevenues_length (rs : List ℚ) : (deltaRevenues rs).length = rs.length := by
  cases rs with
  | nil => rfl
  | cons r rs => simp [deltaRevenues, deltaRevAux_length]

theorem dnwcList_length (cfg : Config) (revs : List ℚ) :
    (dnwcList cfg revs).length = revs.length := by
  cases h : cfg.use_abs_nwc with
  | true => cases revs <;> simp [dnwcList, h]
  | false => simp [dnwcList, h, deltaRevenues_length]

theorem projRowsAux_length (cfg : Config) (gs : List ℚ) : ∀ rs ds : List ℚ,
    gs.length = rs.length → rs.length = ds.length →
    (projRowsAux cfg gs rs ds).length = gs.length := by
  induction gs with
  | nil => intro rs ds _ _; rfl
  | cons g gs ih =>
    intro rs ds h1 h2
    cases rs with
    | nil => simp at h1
    | cons r rs =>
      cases ds with
      | nil => simp at h2
      | cons d ds =>
        simp only [projRowsAux_cons, List.length_cons]
        rw [ih rs ds (by simpa using h1) (by simpa using h2)]

theorem projRows_length (cfg : Config) (hlen : cfg.growths.length = cfg.horizon) :
    (projRows cfg).length = cfg.horizon := by
  rw [projRows]
  rw [projRowsAux_length cfg _ _ _ (by rw [revenuesList_length])
    (by rw [dnwcList_length, revenuesList_length])]
  exact hlen

theorem projRowsAux_map_revenue (cfg : Config) (gs : List ℚ) : ∀ rs ds : List ℚ,
    gs.length = rs.length → rs.length = ds.length →
    (projRowsAux cfg gs rs ds).map Row.revenue = rs := by
  induction gs with
  | nil =>
    intro rs ds h1 h2
    cases rs with
    | nil => rfl
    | cons r rs => simp at h1
  | cons g gs ih =>
    intro rs ds h1 h2
    cases rs with
    | nil => simp at h1
    | cons r rs =>
      cases ds with
      | nil => simp at h2
      | cons d ds =>
        simp [ih rs ds (by simpa using h1) (by simpa using h2)]

theorem projRowsAux_map_dnwc (cfg : Config) (gs : List ℚ) : ∀ rs ds : List ℚ,
    gs.length = rs.length → rs.length = ds.length →
    (projRowsAux cfg gs rs ds).map Row.dnwc = ds := by
  induction gs with
  | nil =>
    intro rs ds h1 h2
    cases rs with
    | nil => cases ds with
      | nil => rfl
      | cons d ds => simp at h2
    | cons r rs => simp at h1
  | cons g gs ih =>
    intro rs ds h1 h2
    cases rs with
    | nil => simp at h1
    | cons r rs =>
      cases ds with
      | nil => simp at h2
      | cons d ds =>
        simp [ih rs ds (by simpa using h1) (by simpa using h2)]

theorem mem_projRowsAux (cfg : Config) (gs : List ℚ) : ∀ (rs ds : List ℚ) (r : Row),
    r ∈ projRowsAux cfg gs rs ds → ∃ g rev d, r = mkRow cfg g rev d := by
  induction gs with
  | nil => intro rs ds r hr; simp at hr
  | cons g gs ih =>
    intro rs ds r hr
    cases rs with
    | nil => rw [projRowsAux_nil_snd] at hr; simp at hr
    | cons rv rs =>
      cases ds with
      | nil => rw [projRowsAux_nil_trd] at hr; simp at hr
      | cons d ds =>
        rw [projRowsAux_cons] at hr
        rcases List.mem_cons.mp hr with h | h
        · exact ⟨g, rv, d, h⟩
        · exact ih rs ds r h

theorem revenuesList_getD_zero (r0 g : ℚ) (gs : List ℚ) :
    (revenuesList r0 (g :: gs)).getD 0 0 = r0 * (1 + g) := rfl

theorem revenuesList_getD_succ (gs : List ℚ) : ∀ (r0 : ℚ) (i : ℕ), i + 1 < gs.length →
    (revenuesList r0 gs).getD (i + 1) 0
      = (revenuesList r0 gs).getD i 0 * (1 + gs.getD (i + 1) 0) := by
  induction gs with
  | nil => intro r0 i hi; simp at hi
  | cons g gs ih =>
    intro r0 i hi
    cases i with
    | zero =>
      cases gs with
      | nil => simp at hi
      | cons g2 gs2 => simp [revenuesList]
    | succ m =>
      simp only [revenuesList, List.getD_cons_succ]
      exact ih (r0 * (1 + g)) m (by simpa using hi)

theorem revenuesList_getD_pos (gs : List ℚ) : ∀ r0 : ℚ, 0 < r0 → (∀ g ∈ gs, 0 < g) →
    ∀ i, i < gs.length → 0 < (revenuesList r0 gs).getD i 0 := by
  induction gs with
  | nil => intro r0 _ _ i hi; simp at hi
  | cons g gs ih =>
    intro r0 hr hg i hi
    have hg0 : 0 < g := hg g (List.mem_cons_self g gs)
    cases i with
    | zero =>
      rw [revenuesList_getD_zero]
      exact mul_pos hr (by linarith)
    | succ m =>
      simp only [revenuesList, List.getD_cons_succ]
      exact ih (r0 * (1 + g)) (mul_pos hr (by linarith))
        (fun g2 h2 => hg g2 (List.mem_cons_of_mem g h2)) m (by simpa using hi)

theorem revenuesList_getLast? (gs : List ℚ) : ∀ r0 : ℚ, gs ≠ [] →
    (revenuesList r0 gs).getLast? = some (r0 * (gs.map (fun g => 1 + g)).prod) := by
  induction gs with
  | nil => intro r0 h; exact absurd rfl h
  | cons g gs ih =>
    intro r0 _
    cases gs with
    | nil => simp [revenuesList]
    | cons g2 gs2 =>
      have hne : (g2 :: gs2 : List ℚ) ≠ [] := by simp
      have hstep : (r0 * (1 + g) * (1 + g2)
            :: revenuesList (r0 * (1 + g) * (1 + g2)) gs2).getLast?
          = some (r0 * (1 + g) * (List.map (fun g3 => 1 + g3) (g2 :: gs2)).prod) :=
        ih (r0 * (1 + g)) hne
      simp only [revenuesList]
      rw [List.getLast?_cons_cons, hstep]
      congr 1
      simp only [List.map_cons, List.prod_cons]
      ring

theorem discountFactorsArray_length (years : ℕ) (w : ℚ) :
    (discountFactorsArray years w).length = years := by
  simp [discountFactorsArray]

theorem discountFactorsArray_getD (years : ℕ) (w : ℚ) (i : ℕ) (hi : i < years) :
    (discountFactorsArray years w).getD i 0 = 1 / (1 + w) ^ (i + 1) := by
  rw [discountFactorsArray, List.getD_eq_getElem?_getD, List.getElem?_map,
    List.getElem?_range hi]
  rfl

theorem discountFactorsArray_getLast? (years : ℕ) (w : ℚ) (h : 1 ≤ years) :
    (discountFactorsArray years w).getLast? = some (1 / (1 + w) ^ years) := by
  obtain ⟨n, rfl⟩ : ∃ n, years = n + 1 := ⟨years - 1, by omega⟩
  rw [discountFactorsArray, List.range_succ, List.map_append]
  simp

theorem lastDiscount_eq (cfg : Config) (h : 1 ≤ cfg.horizon) :
    lastDiscount cfg = 1 / (1 + cfg.wacc) ^ cfg.horizon := by
  rw [lastDiscount, discountFactorsArray_getLast? _ _ h]
  rfl

theorem zipWith_mul_range_sum (xs : List ℚ) : ∀ g : ℕ → ℚ,
    (List.zipWith (fun a b => a * b) xs ((List.range xs.length).map g)).sum
      = ((List.range xs.length).map (fun k => xs.getD k 0 * g k)).sum := by
  induction xs with
  | nil => intro g; rfl
  | cons x xs ih =>
    intro g
    rw [show (x :: xs).length = xs.length + 1 from rfl, List.range_succ_eq_map,
      List.map_cons, List.zipWith_cons_cons, List.sum_cons, List.map_cons, List.sum_cons,
      List.getD_cons_zero, List.map_map, List.map_map, ih (g ∘ Nat.succ)]
    have hfun : ∀ k ∈ List.range xs.length,
        xs.getD k 0 * (g ∘ Nat.succ) k
          = ((fun k => (x :: xs).getD k 0 * g k) ∘ Nat.succ) k := by
      intro k _
      simp [Function.comp, List.getD_cons_succ]
    rw [List.map_congr_left hfun]

theorem pvFcfsSum_eq_range (cfg : Config) (hlen : cfg.growths.length = cfg.horizon) :
    pvFcfsSum cfg = ((List.range cfg.horizon).map
      (fun k => ((projRows cfg).map Row.fcf).getD k 0 * (1 / (1 + cfg.wacc) ^ (k + 1)))).sum := by
  have hl : ((projRows cfg).map Row.fcf).length = cfg.horizon := by
    rw [List.length_map, projRows_length cfg hlen]
  rw [pvFcfsSum, discountFactorsArray, ← hl, zipWith_mul_range_sum]

theorem getD_map_of_lt {α β : Type} (f : α → β) (l : List α) (i : ℕ) (h : i < l.length)
    (d : β) (d2 : α) : (l.map f).getD i d = f (l.getD i d2) := by
  rw [List.getD_eq_getElem?_getD, List.getElem?_map, List.getElem?_eq_getElem h,
    List.getD_eq_getElem l d2 (by omega)]
  rfl

theorem projRows_eq (cfg : Config) :
    projRows cfg = projRowsAux cfg cfg.growths (revenuesList cfg.revenue cfg.growths)
      (dnwcList cfg (revenuesList cfg.revenue cfg.growths)) := rfl

theorem projRows_map_revenue (cfg : Config) :
    (projRows cfg).map Row.revenue = revenuesList cfg.revenue cfg.growths := by
  rw [projRows_eq]
  exact projRowsAux_map_revenue cfg _ _ _ (by rw [revenuesList_length])
    (by rw [dnwcList_length, revenuesList_length])

theorem tvOpt_nonconv (cfg : Config) (hm : cfg.tv_method = TVMethod.perpetuity)
    (hw : cfg.wacc ≤ cfg.perp_g) : tvOpt cfg = none := by
  simp [tvOpt, hm, hw]

theorem pvTvOpt_nonconv (cfg : Config) (hm : cfg.tv_method = TVMethod.perpetuity)
    (hw : cfg.wacc ≤ cfg.perp_g) : pvTvOpt cfg = none := by
  simp [pvTvOpt, tvOpt_nonconv cfg hm hw]

theorem enterpriseValue_nonconv (cfg : Config) (hm : cfg.tv_method = TVMethod.perpetuity)
    (hw : cfg.wacc ≤ cfg.perp_g) : enterpriseValue cfg = pvFcfsSum cfg := by
  simp [enterpriseValue, pvTvOpt_nonconv cfg hm hw]

theorem linspace_length (a b : ℚ) (n : ℕ) : (linspace a b n).length = n := by
  rw [linspace, List.length_map, List.length_range]

theorem perpGrid_length (cfg : Config) : (perpGrid cfg).length = 12 := by
  rw [perpGrid, List.length_map, waccGridPerp, linspace_length]

theorem perpGrid_getD (cfg : Config) (i : ℕ) (hi : i < 12) :
    (perpGrid cfg).getD i []
      = (gGridPerp cfg).map (fun G => perpGridCell cfg ((waccGridPerp cfg).getD i 0) G) := by
  rw [perpGrid, getD_map_of_lt _ _ i (by rw [waccGridPerp, linspace_length]; exact hi) [] 0]

theorem perpGrid_cell (cfg : Config) (i j : ℕ) (hi : i < 12) (hj : j < 12) :
    ((perpGrid cfg).getD i []).getD j none
      = perpGridCell cfg ((waccGridPerp cfg).getD i 0) ((gGridPerp cfg).getD j 0) := by
  rw [perpGrid_getD cfg i hi,
    getD_map_of_lt _ _ j (by rw [gGridPerp, linspace_length]; exact hj) none 0]

/-- C1 counterexample: with wacc = g = 0.04 (perpetuity mode) the engine does
NOT fail; it returns numeric enterprise, equity and per-share values, and the
displayed PV-of-terminal metric is the sentinel 0. -/
theorem claim_C1_counterexample :
    cfgNonConv.tv_method = TVMethod.perpetuity ∧
    cfgNonConv.wacc ≤ cfgNonConv.perp_g ∧
    tvOpt cfgNonConv = none ∧
    enterpriseValue cfgNonConv = 1250 / 13 ∧
    equityValue cfgNonConv = 1250 / 13 ∧
    perShareValue cfgNonConv = 12500000000 / 13 ∧
    pvTvDisplayed cfgNonConv = 0 := by
  refine ⟨rfl, by norm_num [cfgNonConv], ?_, ?_, ?_, ?_, ?_⟩ <;>
    norm_num [cfgNonConv, tvOpt, enterpriseValue, equityValue, perShareValue,
      pvTvDisplayed, pvTvOpt, pvFcfsSum, lastFcf, lastDiscount, projRows, projRowsAux,
      mkRow, revenuesList, dnwcList, deltaRevenues, discountFactorsArray,
      List.range_succ, gordonTV]

/-- C1 amended: in perpetuity mode with wacc ≤ g the terminal value is the NaN
marker (none), but the valuation still returns numeric results in which the PV
of the terminal value has been replaced by 0. -/
theorem claim_C1 (cfg : Config) (hm : cfg.tv_method = TVMethod.perpetuity)
    (hw : cfg.wacc ≤ cfg.perp_g) :
    tvOpt cfg = none ∧ pvTvOpt cfg = none ∧
    enterpriseValue cfg = pvFcfsSum cfg ∧ pvTvDisplayed cfg = 0 := by
  refine ⟨tvOpt_nonconv cfg hm hw, pvTvOpt_nonconv cfg hm hw,
    enterpriseValue_nonconv cfg hm hw, ?_⟩
  simp [pvTvDisplayed, pvTvOpt_nonconv cfg hm hw]

/-- Witness for claim_C1 at a concrete non-convergent configuration. -/
theorem claim_C1_witness :
    cfgNonConv.tv_method = TVMethod.perpetuity ∧
    cfgNonConv.wacc ≤ cfgNonConv.perp_g ∧
    (tvOpt cfgNonConv = none ∧ pvTvOpt cfgNonConv = none ∧
     enterpriseValue cfgNonConv = pvFcfsSum cfgNonConv ∧ pvTvDisplayed cfgNonConv = 0) :=
  ⟨rfl, by norm_num [cfgNonConv], claim_C1 cfgNonConv rfl (by norm_num [cfgNonConv])⟩

/-- C2: the projection produces exactly horizon rows; revenue follows the
compound-growth recurrence with revenue 0 equal to the base revenue, the last
revenue is the base times the product of the growth factors, revenue is
strictly increasing when the base is positive and all growth rates are
positive, and every row satisfies the margin, EBITDA, EBIT, NOPAT and FCF
identities of the source. -/
theorem claim_C2 (cfg : Config) (h1 : 1 ≤ cfg.horizon)
    (hlen : cfg.growths.length = cfg.horizon) : C2concl cfg := by
  have hrev := projRows_map_revenue cfg
  have hne : cfg.growths ≠ [] := by
    intro hc
    rw [hc] at hlen
    simp at hlen
    omega
  obtain ⟨g0, gs0, hgs⟩ : ∃ g0 gs0, cfg.growths = g0 :: gs0 := by
    cases hh : cfg.growths with
    | nil => exact absurd hh hne
    | cons a l => exact ⟨a, l, rfl⟩
  refine ⟨projRows_length cfg hlen, hrev, ?_, ?_, ?_, ?_, ?_, ?_⟩
  · rw [hrev, hgs, revenuesList_getD_zero]
    simp
  · intro i hi
    rw [hrev]
    exact revenuesList_getD_succ cfg.growths cfg.revenue i (by rw [hlen]; exact hi)
  · rw [hrev]
    exact revenuesList_getLast? cfg.growths cfg.revenue hne
  · intro hr hg
    rw [hrev, hgs, revenuesList_getD_zero]
    have hg0 : 0 < g0 := hg g0 (hgs ▸ List.mem_cons_self g0 gs0)
    nlinarith
  · intro hr hg i hi
    rw [hrev, revenuesList_getD_succ cfg.growths cfg.revenue i (by rw [hlen]; exact hi)]
    have hpos : 0 < (revenuesList cfg.revenue cfg.growths).getD i 0 :=
      revenuesList_getD_pos cfg.growths cfg.revenue hr hg i (by rw [hlen]; omega)
    have hmem : cfg.growths.getD (i + 1) 0 ∈ cfg.growths := by
      rw [List.getD_eq_getElem cfg.growths 0 (by rw [hlen]; exact hi)]
      exact List.getElem_mem _
    have hgi : 0 < cfg.growths.getD (i + 1) 0 := hg _ hmem
    nlinarith
  · intro r hr
    obtain ⟨g, rev, d, rfl⟩ :=
      mem_projRowsAux cfg cfg.growths _ _ r (by rw [← projRows_eq]; exact hr)
    exact ⟨rfl, rfl, rfl, rfl, rfl, rfl, rfl, rfl, rfl⟩

/-- Witness for claim_C2 at a concrete two-year configuration. -/
theorem claim_C2_witness :
    1 ≤ cfgProj.horizon ∧ cfgProj.growths.length = cfgProj.horizon ∧ C2concl cfgProj :=
  ⟨by decide, by decide, claim_C2 cfgProj (by decide) (by decide)⟩

theorem projRowsAux_tv_irrel (cfg : Config) (m : TVMethod) (gs : List ℚ) :
    ∀ rs ds : List ℚ, projRowsAux { cfg with tv_method := m } gs rs ds
      = projRowsAux cfg gs rs ds := by
  induction gs with
  | nil => intro rs ds; rfl
  | cons g gs ih =>
    intro rs ds
    cases rs with
    | nil => rw [projRowsAux_nil_snd, projRowsAux_nil_snd]
    | cons r rs =>
      cases ds with
      | nil => rw [projRowsAux_nil_trd, projRowsAux_nil_trd]
      | cons d ds =>
        rw [projRowsAux_cons, projRowsAux_cons, ih rs ds]
        rfl

theorem projRows_tv_irrel (cfg : Config) (m : TVMethod) :
    projRows { cfg with tv_method := m } = projRows cfg := by
  rw [projRows_eq, projRows_eq]
  exact projRowsAux_tv_irrel cfg m _ _ _

theorem lastFcf_tv_irrel (cfg : Config) (m : TVMethod) :
    lastFcf { cfg with tv_method := m } = lastFcf cfg := by
  unfold lastFcf
  rw [projRows_tv_irrel]

theorem lastEbitda_tv_irrel (cfg : Config) (m : TVMethod) :
    lastEbitda { cfg with tv_method := m } = lastEbitda cfg := by
  unfold lastEbitda
  rw [projRows_tv_irrel]

/-- C3: in perpetuity mode (with wacc > g) the undiscounted terminal value is
FCF at the horizon times (1+g)/(wacc−g); in exit-multiple mode it is EBITDA at
the horizon times the multiple; in both modes the PV of the terminal value is
TV times the final-year discount factor; the Gordon example at FCF=100,
g=0.04, wacc=0.11 equals 10400/7, within 0.01 of 1485.71. -/
theorem claim_C3 (cfg : Config) (hh : 1 ≤ cfg.horizon) (hg : cfg.perp_g < cfg.wacc) :
    C3concl cfg := by
  have hldp : lastDiscount { cfg with tv_method := TVMethod.perpetuity }
      = 1 / (1 + cfg.wacc) ^ cfg.horizon := by
    have h0 : lastDiscount { cfg with tv_method := TVMethod.perpetuity }
        = lastDiscount cfg := rfl
    rw [h0, lastDiscount_eq cfg hh]
  have hlde : lastDiscount { cfg with tv_method := TVMethod.exitMultiple }
      = 1 / (1 + cfg.wacc) ^ cfg.horizon := by
    have h0 : lastDiscount { cfg with tv_method := TVMethod.exitMultiple }
        = lastDiscount cfg := rfl
    rw [h0, lastDiscount_eq cfg hh]
  have hfp : lastFcf { cfg with tv_method := TVMethod.perpetuity } = lastFcf cfg :=
    lastFcf_tv_irrel cfg TVMethod.perpetuity
  have hee : lastEbitda { cfg with tv_method := TVMethod.exitMultiple } = lastEbitda cfg :=
    lastEbitda_tv_irrel cfg TVMethod.exitMultiple
  have hnotle : ¬ cfg.wacc ≤ cfg.perp_g := not_le.mpr hg
  refine ⟨?_, ?_, ?_, ?_, by norm_num [gordonTV], ?_⟩
  · simp [tvOpt, hnotle, hfp]
  · simp [tvOpt, hee]
  · simp [pvTvOpt, tvOpt, hnotle, hfp, hldp]
  · simp [pvTvOpt, tvOpt, hee, hlde]
  · rw [show gordonTV 100 (4 / 100) (11 / 100) = 10400 / 7 by norm_num [gordonTV]]
    rw [abs_le]
    constructor <;> norm_num

/-- Witness for claim_C3 at a concrete configuration with wacc > g. -/
theorem claim_C3_witness :
    1 ≤ cfgProj.horizon ∧ cfgProj.perp_g < cfgProj.wacc ∧ C3concl cfgProj :=
  ⟨by decide, by norm_num [cfgProj], claim_C3 cfgProj (by decide) (by norm_num [cfgProj])⟩

/-- C4: the discount factor for (0-based) index k is exactly 1/(1+wacc)^(k+1),
all factors lie in (0,1] for wacc ≥ 0, they are strictly decreasing in the
index for wacc > 0, the wacc=0.10 first factor is 10/11 = 0.9090..., and the
PV-of-FCF sum is the sum of FCF times discount factor. -/
theorem claim_C4 (cfg : Config) (w w2 : ℚ) (n i j k : ℕ) (hw : 0 ≤ w) (hw2 : 0 < w2)
    (hk : k < n) (hij : i < j) (hjn : j < n)
    (hlen : cfg.growths.length = cfg.horizon) : C4concl cfg w w2 n i j k := by
  have h1w : (0 : ℚ) < 1 + w := by linarith
  have h1w2 : (1 : ℚ) < 1 + w2 := by linarith
  refine ⟨discountFactorsArray_length n w, discountFactorsArray_getD n w k hk, ?_, ?_, ?_,
    ?_, pvFcfsSum_eq_range cfg hlen⟩
  · rw [discountFactorsArray_getD n w k hk]
    exact div_pos one_pos (pow_pos h1w (k + 1))
  · rw [discountFactorsArray_getD n w k hk]
    rw [div_le_one (pow_pos h1w (k + 1))]
    exact one_le_pow₀ (by linarith)
  · rw [discountFactorsArray_getD n w2 j hjn,
      discountFactorsArray_getD n w2 i (lt_trans hij hjn)]
    exact one_div_lt_one_div_of_lt (pow_pos (by linarith) (i + 1))
      (pow_lt_pow_right₀ h1w2 (by omega))
  · norm_num [discountFactorsArray, List.range_succ]

/-- Witness for claim_C4 at concrete discount rates and indices. -/
theorem claim_C4_witness :
    (0 : ℚ) ≤ 1 / 10 ∧ (0 : ℚ) < 1 / 10 ∧ 0 < 3 ∧ 0 < 1 ∧ 1 < 3 ∧
    cfgProj.growths.length = cfgProj.horizon ∧ C4concl cfgProj (1 / 10) (1 / 10) 3 0 1 0 :=
  ⟨by norm_num, by norm_num, by decide, by decide, by decide, by decide,
    claim_C4 cfgProj (1 / 10) (1 / 10) 3 0 1 0 (by norm_num) (by norm_num)
      (by decide) (by decide) (by decide) (by decide)⟩

/-- C5: enterprise value is the PV-of-FCF sum plus the PV of the terminal
value, equity value is enterprise value minus net debt, per-share value is
equity value times the single crore-to-rupee scale 10^7 divided by diluted
shares, and negative net debt (net cash) makes equity value exceed enterprise
value. -/
theorem claim_C5 (cfg : Config) (t : ℚ) (ht : pvTvOpt cfg = some t)
    (hnd : cfg.net_debt < 0) :
    enterpriseValue cfg = pvFcfsSum cfg + t ∧
    equityValue cfg = enterpriseValue cfg - cfg.net_debt ∧
    perShareValue cfg = equityValue cfg * 10000000 / cfg.diluted_shares ∧
    enterpriseValue cfg < equityValue cfg := by
  refine ⟨?_, rfl, rfl, ?_⟩
  · simp [enterpriseValue, ht]
  · rw [equityValue]
    linarith

/-- Witness for claim_C5 at a concrete exit-multiple, net-cash configuration. -/
theorem claim_C5_witness :
    pvTvOpt cfgExitCash = some 100 ∧ cfgExitCash.net_debt < 0 ∧
    (enterpriseValue cfgExitCash = pvFcfsSum cfgExitCash + 100 ∧
     equityValue cfgExitCash = enterpriseValue cfgExitCash - cfgExitCash.net_debt ∧
     perShareValue cfgExitCash = equityValue cfgExitCash * 10000000 / cfgExitCash.diluted_shares ∧
     enterpriseValue cfgExitCash < equityValue cfgExitCash) := by
  have hpv : pvTvOpt cfgExitCash = some 100 := by
    norm_num [cfgExitCash, pvTvOpt, tvOpt, lastEbitda, lastDiscount, projRows, projRowsAux,
      mkRow, revenuesList, dnwcList, discountFactorsArray, List.range_succ]
  have hnd : cfgExitCash.net_debt < 0 := by norm_num [cfgExitCash]
  exact ⟨hpv, hnd, claim_C5 cfgExitCash 100 hpv hnd⟩

/-- C6 (code bug): with the percent-of-revenue-change ΔNWC policy, the code's
year-1 ΔNWC equals revenue[1] times nwc_pct (the fillna puts the first revenue
LEVEL, not the first revenue change, into ΔRevenue): at base revenue 100,
growth 10 percent, nwc_pct 1/50, the code produces ΔNWC = 11/5 while the
claimed formula (revenue[1] − revenue[0]) × nwc_pct gives 1/5. -/
theorem claim_C6 :
    cfgNwcBug.use_abs_nwc = false ∧
    (projRows cfgNwcBug).map Row.revenue = [110] ∧
    (projRows cfgNwcBug).map Row.dnwc = [11 / 5] ∧
    (((projRows cfgNwcBug).map Row.revenue).getD 0 0 - cfgNwcBug.revenue) * cfgNwcBug.nwc_pct
      = 1 / 5 ∧
    ((11 : ℚ) / 5) ≠ 1 / 5 := by
  refine ⟨rfl, ?_, ?_, ?_, by norm_num⟩ <;>
    norm_num [cfgNwcBug, projRows, projRowsAux, revenuesList, dnwcList, deltaRevenues,
      deltaRevAux, mkRow]

/-- C7 counterexample: a growth string with an unparseable token does not
produce any error; it silently becomes the flat 0.06 schedule. -/
theorem claim_C7_counterexample :
    parseCustomGrowth [none] 5 = List.replicate 5 (6 / 100) := by
  simp [parseCustomGrowth]

/-- C7 amended: the engine performs no InvalidConfiguration validation.  When
any token of the custom growth string fails to parse the schedule silently
falls back to a flat 0.06 of length horizon, and when every token parses the
list is truncated to at most horizon entries with no length check. -/
theorem claim_C7 (toks toks2 : List (Option ℚ)) (n : ℕ)
    (h1 : none ∈ toks) (h2 : toks2.all Option.isSome = true) :
    parseCustomGrowth toks n = List.replicate n (6 / 100) ∧
    parseCustomGrowth toks2 n = (toks2.filterMap id).take n := by
  constructor
  · cases hall : toks.all Option.isSome with
    | false => simp [parseCustomGrowth, hall]
    | true =>
      exfalso
      rw [List.all_eq_true] at hall
      have := hall none h1
      simp at this
  · simp [parseCustomGrowth, h2]

/-- Witness for claim_C7 at a concrete bad token list and good token list. -/
theorem claim_C7_witness :
    (none ∈ ([none] : List (Option ℚ))) ∧
    (([some (7 / 100)] : List (Option ℚ)).all Option.isSome = true) ∧
    (parseCustomGrowth [none] 5 = List.replicate 5 (6 / 100) ∧
     parseCustomGrowth [some (7 / 100)] 5
       = (([some (7 / 100)] : List (Option ℚ)).filterMap id).take 5) := by
  have h1 : none ∈ ([none] : List (Option ℚ)) := List.mem_singleton.mpr rfl
  have h2 : (([some (7 / 100)] : List (Option ℚ)).all Option.isSome) = true := by simp
  exact ⟨h1, h2, claim_C7 [none] [some (7 / 100)] 5 h1 h2⟩

/-- C8: every perpetuity-grid cell at indices (i, j) is none exactly when the
cell's wacc is ≤ the cell's terminal growth (an explicit undefined marker,
distinct from every numeric value and from zero), and otherwise is the
per-share value built from the base case's pv_fcfs_sum and final-year FCF
(the projection is not re-run per cell); the grid has all 12 × 12 cells. -/
theorem claim_C8 (cfg : Config) (i j : ℕ) (hi : i < 12) (hj : j < 12) :
    C8concl cfg i j := by
  refine ⟨perpGrid_length cfg, ?_, ?_⟩
  · rw [perpGrid_getD cfg i hi, List.length_map, gGridPerp, linspace_length]
  · rw [perpGrid_cell cfg i j hi hj]
    rfl

/-- Witness for claim_C8 at the top-left grid cell of a concrete
configuration. -/
theorem claim_C8_witness : 0 < 12 ∧ 0 < 12 ∧ C8concl cfgProj 0 0 :=
  ⟨by decide, by decide, claim_C8 cfgProj 0 0 (by decide) (by decide)⟩

/-- C9: in perpetuity mode with wacc ≤ g the code still produces numeric
headline outputs: the terminal value is the NaN marker, the PV-of-terminal
metric displays 0, and enterprise, equity and per-share values are the
finite numbers obtained by silently excluding the terminal value. -/
theorem claim_C9 (cfg : Config) (hm : cfg.tv_method = TVMethod.perpetuity)
    (hw : cfg.wacc ≤ cfg.perp_g) : C9concl cfg := by
  have hev := enterpriseValue_nonconv cfg hm hw
  refine ⟨tvOpt_nonconv cfg hm hw, pvTvOpt_nonconv cfg hm hw, ?_, hev, ?_, ?_⟩
  · simp [pvTvDisplayed, pvTvOpt_nonconv cfg hm hw]
  · rw [equityValue, hev]
  · rw [perShareValue, equityValue, hev]

/-- Witness for claim_C9 at a concrete non-convergent configuration. -/
theorem claim_C9_witness :
    cfgNonConv.tv_method = TVMethod.perpetuity ∧
    cfgNonConv.wacc ≤ cfgNonConv.perp_g ∧ C9concl cfgNonConv :=
  ⟨rfl, by norm_num [cfgNonConv], claim_C9 cfgNonConv rfl (by norm_num [cfgNonConv])⟩

/-- C10: in every sensitivity-grid cell (both grids) the explicit-horizon
PV-of-FCF term of the cell's enterprise value is the base case's pv_fcfs_sum,
computed with the base WACC; varying the cell WACC only changes the
terminal-value term. -/
theorem claim_C10 (cfg : Config) (W1 W2 G M : ℚ)
    (hlen : cfg.growths.length = cfg.horizon) : C10concl cfg W1 W2 G M := by
  refine ⟨?_, ?_, ?_, ?_, pvFcfsSum_eq_range cfg hlen⟩ <;>
    simp [perpCellEV, exitCellEV]

/-- Witness for claim_C10 at concrete cell parameters. -/
theorem claim_C10_witness :
    cfgProj.growths.length = cfgProj.horizon ∧
    C10concl cfgProj (1 / 10) (2 / 10) (1 / 25) 15 :=
  ⟨by decide, claim_C10 cfgProj (1 / 10) (2 / 10) (1 / 25) 15 (by decide)⟩
